/- Verification development for wl-distore, a display-layout memory daemon.

The definitions below are a shallow embedding of the daemon's sources:

  * src/complete.rs   — committed Head / Mode records and `Head::apply_partial`
  * src/partial.rs    — the staging (Partial) records filled field by field
  * src/main.rs       — the event dispatch (reconciler + orchestrator)
  * src/serde.rs      — the persisted layout store and the layout matcher

Rust `HashMap` / `HashSet` values are modelled as association lists / lists
whose keys are unique; `ObjectId` (a wayland protocol object id) is a `Nat`;
`f64` values (`scale`) are carried as exact rationals because the daemon only
copies them, never computes with them; a Rust `panic!` / `expect` is modelled
as `Except.error` carrying the panic message. -/

import Mathlib

/-- A wayland protocol object id. The daemon only compares these for equality
and uses them as map keys. -/
abbrev ObjectId := Nat

/-- An `f64` carried opaquely: the daemon copies scale values between records
and requests but never performs arithmetic on them. -/
abbrev F64 := Rat

/-- src/serde.rs `Transform`: the eight output transforms. Source constructor
names `_90`, `_180`, `_270` are spelled `Rot90`, `Rot180`, `Rot270` here. -/
inductive Transform
  | Normal
  | Rot90
  | Rot180
  | Rot270
  | Flipped
  | Flipped90
  | Flipped180
  | Flipped270
deriving DecidableEq

/-- The wire tri-state for adaptive sync delivered by the protocol client
(spec section 6 lists enabled, disabled and unknown). src/main.rs only matches
on `Enabled` and treats every other recognized variant uniformly, so the exact
set of non-Enabled variants does not affect any embedded behaviour. -/
inductive AdaptiveSyncState
  | Enabled
  | Disabled
  | Unknown
deriving DecidableEq

/-- Wrapping conversion from a signed 32-bit wire value to the `u32` the
records store (Rust `x as u32`). -/
def u32ofI32 (x : Int) : Nat := (x % 4294967296).toNat

/-- Wrapping conversion from a stored `u32` back to the signed 32-bit value a
request carries (Rust `x as i32`). -/
def i32ofU32 (n : Nat) : Int :=
  if n % 4294967296 < 2147483648 then ((n % 4294967296 : Nat) : Int)
  else ((n % 4294967296 : Nat) : Int) - 4294967296

/-- src/complete.rs `Mode`: a committed mode value. -/
structure Mode where
  size : Nat × Nat
  refresh : Option Nat
deriving DecidableEq

/-- src/partial.rs `PartialMode`: a staged mode, filled field by field. -/
structure PartialMode where
  size : Option (Nat × Nat)
  refresh : Option Nat
deriving DecidableEq

/-- src/complete.rs `CreateModeError`. -/
inductive CreateModeError
  | MissingSize
deriving DecidableEq

/-- src/complete.rs `TryFrom<PartialMode> for Mode`: a staged mode finalizes
only once its size is known. -/
def Mode.tryFrom (value : PartialMode) : Except CreateModeError Mode :=
  match value.size with
  | none => Except.error CreateModeError.MissingSize
  | some size => Except.ok { size := size, refresh := value.refresh }

/-- src/main.rs, `Done` handler: every staged mode is drained and converted
with `.expect("Done is called, so the partial mode should be well-defined")`.
The conversion failure is a Rust panic, modelled as `Except.error` with the
panic message. -/
def drainModes : List (ObjectId × PartialMode) → Except String (List (ObjectId × Mode))
  | [] => Except.ok []
  | (id, pm) :: rest =>
    match Mode.tryFrom pm with
    | Except.error _ => Except.error "Done is called, so the partial mode should be well-defined"
    | Except.ok mode => (drainModes rest).map (fun ms => (id, mode) :: ms)

/-- src/complete.rs `HeadIdentity`: the hardware-derived identity used as the
persisted key. -/
structure HeadIdentity where
  name : String
  description : String
  make : Option String
  model : Option String
  serial_number : Option String
deriving DecidableEq

/-- The hardware fingerprint a fuzzy match compares:
`(make, model, serial_number)`. -/
def fingerprint (h : HeadIdentity) : Option String × Option String × Option String :=
  (h.make, h.model, h.serial_number)

/-- src/complete.rs `HeadConfiguration`: the mutable state of an enabled
committed head. -/
structure HeadConfiguration where
  current_mode : Option ObjectId
  position : Nat × Nat
  transform : Transform
  scale : F64
  adaptive_sync : Option Bool
deriving DecidableEq

/-- src/complete.rs `impl Default for HeadConfiguration`. -/
def HeadConfiguration.defaultConfig : HeadConfiguration :=
  { current_mode := none
    position := (0, 0)
    transform := Transform.Normal
    scale := 1
    adaptive_sync := none }

/-- src/complete.rs `Head`: a committed head. `mode_to_id` maps each
advertised mode value to the live handle carrying it. -/
structure Head where
  identity : HeadIdentity
  mode_to_id : List (Mode × ObjectId)
  configuration : Option HeadConfiguration
deriving DecidableEq

/-- src/partial.rs `PartialHead`: a staged head, filled field by field.
The transform and adaptive-sync fields hold the already-converted values the
dispatch in src/main.rs stores. -/
structure PartialHead where
  name : Option String
  description : Option String
  make : Option String
  model : Option String
  serial_number : Option String
  physical_size : Option (Nat × Nat)
  enabled : Option Bool
  modes : List ObjectId
  current_mode : Option ObjectId
  position : Option (Nat × Nat)
  transform : Option Transform
  scale : Option F64
  adaptive_sync : Option Bool
deriving DecidableEq

/-- The all-empty staged head a fresh `Head` protocol event creates
(`Default::default()` in src/main.rs). -/
def PartialHead.empty : PartialHead :=
  { name := none, description := none, make := none, model := none
    serial_number := none, physical_size := none, enabled := none
    modes := [], current_mode := none, position := none, transform := none
    scale := none, adaptive_sync := none }

/-- src/partial.rs `PartialObjects`: the staging area keyed by object id. -/
structure PartialObjects where
  id_to_head : List (ObjectId × PartialHead)
  id_to_mode : List (ObjectId × PartialMode)
deriving DecidableEq

/-- src/complete.rs `ImmutableProperty` (declared there; its definition is not
in src/). Modelled from the spec: the write-once identity fields are name,
description, make, model and serial_number. -/
inductive ImmutableProperty
  | Name
  | Description
  | Make
  | Model
  | SerialNumber
deriving DecidableEq

/-- src/complete.rs `ConfigurationProperty` (declared there; its definition is
not in src/). Modelled from the spec: the configuration-bearing fields are
current_mode, position, transform, scale and adaptive_sync. -/
inductive ConfigurationProperty
  | CurrentMode
  | Position
  | TransformProp
  | Scale
  | AdaptiveSync
deriving DecidableEq

/-- Modelled from the spec: `PartialHead::get_assigned_immutable_property` is
used by src/complete.rs but its definition is not in src/; per the spec it
reports an assigned write-once identity field, if any. -/
def PartialHead.get_assigned_immutable_property (p : PartialHead) : Option ImmutableProperty :=
  if p.name.isSome then some ImmutableProperty.Name
  else if p.description.isSome then some ImmutableProperty.Description
  else if p.make.isSome then some ImmutableProperty.Make
  else if p.model.isSome then some ImmutableProperty.Model
  else if p.serial_number.isSome then some ImmutableProperty.SerialNumber
  else none

/-- Modelled from the spec: `PartialHead::get_assigned_configuration_property`
is used by src/complete.rs but its definition is not in src/; per the spec it
reports an assigned configuration-bearing field, if any. -/
def PartialHead.get_assigned_configuration_property (p : PartialHead) : Option ConfigurationProperty :=
  if p.current_mode.isSome then some ConfigurationProperty.CurrentMode
  else if p.position.isSome then some ConfigurationProperty.Position
  else if p.transform.isSome then some ConfigurationProperty.TransformProp
  else if p.scale.isSome then some ConfigurationProperty.Scale
  else if p.adaptive_sync.isSome then some ConfigurationProperty.AdaptiveSync
  else none

/-- src/complete.rs `ApplyPartialHeadError`. -/
inductive ApplyPartialHeadError
  | ImmutablePropertySet (p : ImmutableProperty)
  | ConfigurationPropertyOnDisabledHeadSet (p : ConfigurationProperty)
deriving DecidableEq

/-- Association-list lookup modelling `HashMap::get`. -/
def lookupKey {α β : Type} [DecidableEq α] : α → List (α × β) → Option β
  | _, [] => none
  | k, kv :: rest => if kv.1 = k then some kv.2 else lookupKey k rest

/-- Association-list insert modelling `HashMap::insert` (replaces the value of
an existing key). -/
def insertKey {α β : Type} [DecidableEq α] (m : List (α × β)) (k : α) (v : β) : List (α × β) :=
  if (lookupKey k m).isSome then m.map (fun kv => if kv.1 = k then (k, v) else kv)
  else m ++ [(k, v)]

/-- Association-list removal modelling `HashMap::remove`. -/
def removeKey {α β : Type} [DecidableEq α] (m : List (α × β)) (k : α) : List (α × β) :=
  m.filter (fun kv => decide (kv.1 ≠ k))

/-- `HashMap::extend` over an association list. -/
def extendKeys {α β : Type} [DecidableEq α] (m news : List (α × β)) : List (α × β) :=
  news.foldl (fun acc kv => insertKey acc kv.1 kv.2) m

/-- src/complete.rs `Head::apply_partial`: sets the values staged in `p` on an
existing head. Mirrors the source: reject a staged immutable property; extend
the mode map, silently skipping staged mode ids with no committed mode (the
"phantom mode" tolerance); on `enabled = false` clear the configuration and
reject staged configuration properties; on `enabled = true` install a fresh
default configuration; then copy the staged configuration fields. -/
def Head.apply_partial (self : Head) (p : PartialHead)
    (id_to_mode : List (ObjectId × Mode)) : Except ApplyPartialHeadError Head :=
  match p.get_assigned_immutable_property with
  | some prop => Except.error (ApplyPartialHeadError.ImmutablePropertySet prop)
  | none =>
    let withModes : Head :=
      { self with
        mode_to_id := extendKeys self.mode_to_id
          (p.modes.filterMap (fun id => (lookupKey id id_to_mode).map (fun mode => (mode, id)))) }
    let afterEnabled : Except ApplyPartialHeadError Head :=
      match p.enabled with
      | some false =>
        match p.get_assigned_configuration_property with
        | some cp => Except.error (ApplyPartialHeadError.ConfigurationPropertyOnDisabledHeadSet cp)
        | none => Except.ok { withModes with configuration := none }
      | some true =>
        Except.ok { withModes with configuration := some HeadConfiguration.defaultConfig }
      | none => Except.ok withModes
    match afterEnabled with
    | Except.error e => Except.error e
    | Except.ok head =>
      if p.enabled = some false then Except.ok head
      else
        match head.configuration with
        | none =>
          match p.get_assigned_configuration_property with
          | some cp => Except.error (ApplyPartialHeadError.ConfigurationPropertyOnDisabledHeadSet cp)
          | none => Except.ok head
        | some configuration =>
          Except.ok { head with
            configuration := some
              { current_mode := p.current_mode
                position := p.position.getD configuration.position
                transform := p.transform.getD configuration.transform
                scale := p.scale.getD configuration.scale
                adaptive_sync := p.adaptive_sync } }

/-- The head events dispatched in src/main.rs `Dispatch<ZwlrOutputHeadV1>`,
after the boundary conversions the dispatch performs up front (the transform
and adaptive-sync wire enums are already decoded; `Enabled` still carries the
raw signed integer the dispatch compares with `> 0`). `Finished` is handled
at the `AppData` level and is not part of this per-head event type. -/
inductive HeadEvent
  | Name (name : String)
  | Description (description : String)
  | Make (make : String)
  | Model (model : String)
  | SerialNumber (serial_number : String)
  | PhysicalSize (width height : Int)
  | ModeAdded (mode : ObjectId)
  | Enabled (enabled : Int)
  | CurrentMode (mode : ObjectId)
  | Position (x y : Int)
  | TransformEvent (transform : Transform)
  | Scale (scale : F64)
  | AdaptiveSync (state : AdaptiveSyncState)
deriving DecidableEq

/-- src/main.rs, adaptive-sync decoding: only `Enabled` maps to `true`, every
other recognized variant maps to `false`. -/
def adaptiveSyncToBool : AdaptiveSyncState → Bool
  | AdaptiveSyncState.Enabled => true
  | _ => false

/-- src/main.rs `Dispatch<ZwlrOutputHeadV1>`, the `HeadState::Partial` arms:
while a head is staged every event is a plain field assignment (`ModeAdded`
additionally creates a staged mode in the `AppData`-level handler). -/
def handlePartialHeadEvent (p : PartialHead) : HeadEvent → PartialHead
  | HeadEvent.Name n => { p with name := some n }
  | HeadEvent.Description d => { p with description := some d }
  | HeadEvent.Make m => { p with make := some m }
  | HeadEvent.Model m => { p with model := some m }
  | HeadEvent.SerialNumber s => { p with serial_number := some s }
  | HeadEvent.PhysicalSize w h => { p with physical_size := some (u32ofI32 w, u32ofI32 h) }
  | HeadEvent.ModeAdded id => { p with modes := p.modes ++ [id] }
  | HeadEvent.Enabled e => { p with enabled := some (decide (0 < e)) }
  | HeadEvent.CurrentMode id => { p with current_mode := some id }
  | HeadEvent.Position x y => { p with position := some (u32ofI32 x, u32ofI32 y) }
  | HeadEvent.TransformEvent t => { p with transform := some t }
  | HeadEvent.Scale s => { p with scale := some s }
  | HeadEvent.AdaptiveSync st => { p with adaptive_sync := some (adaptiveSyncToBool st) }

/-- src/main.rs `Dispatch<ZwlrOutputHeadV1>`, the `HeadState::Full` arms: a
panic is an `Except.error` with the source's panic message (the head id the
source interpolates is elided). Identity events on a committed head panic;
`Enabled` sets the configuration to `None` whatever the flag's value;
configuration events require the head to be enabled and update the
corresponding field. -/
def handleCommittedHeadEvent (head : Head) : HeadEvent → Except String Head
  | HeadEvent.Name _ => Except.error "Received identity event Name for head, which is already done"
  | HeadEvent.Description _ =>
    Except.error "Received identity event Description for head, which is already done"
  | HeadEvent.Make _ => Except.error "Received identity event Make for head, which is already done"
  | HeadEvent.Model _ => Except.error "Received identity event Model for head, which is already done"
  | HeadEvent.SerialNumber _ =>
    Except.error "Received identity event SerialNumber for head, which is already done"
  | HeadEvent.PhysicalSize _ _ =>
    Except.error "Received identity event PhysicalSize for head, which is already done"
  | HeadEvent.ModeAdded _ => Except.error "Received event Mode for head, which is already done"
  | HeadEvent.Enabled _ => Except.ok { head with configuration := none }
  | HeadEvent.CurrentMode id =>
    match head.configuration with
    | none => Except.error "Received a CurrentMode event while head is disabled"
    | some c => Except.ok { head with configuration := some { c with current_mode := some id } }
  | HeadEvent.Position x y =>
    match head.configuration with
    | none => Except.error "Received a Position event while head is disabled"
    | some c =>
      Except.ok { head with configuration := some { c with position := (u32ofI32 x, u32ofI32 y) } }
  | HeadEvent.TransformEvent t =>
    match head.configuration with
    | none => Except.error "Received a Transform event while head is disabled"
    | some c => Except.ok { head with configuration := some { c with transform := t } }
  | HeadEvent.Scale s =>
    match head.configuration with
    | none => Except.error "Received a Scale event while head is disabled"
    | some c => Except.ok { head with configuration := some { c with scale := s } }
  | HeadEvent.AdaptiveSync st =>
    match head.configuration with
    | none => Except.error "Received a AdaptiveSync event while head is disabled"
    | some c =>
      Except.ok
        { head with configuration := some { c with adaptive_sync := some (adaptiveSyncToBool st) } }

/-- src/serde.rs `SavedConfiguration`: the persisted projection of a head
configuration, with the current mode resolved to a mode value. -/
structure SavedConfiguration where
  mode : Option Mode
  position : Nat × Nat
  transform : Transform
  scale : F64
  adaptive_sync : Option Bool
deriving DecidableEq

/-- The requests `SavedConfiguration::apply` issues on a
`ZwlrOutputConfigurationHeadV1`, in order. `SetMode` carries the live mode
handle the request references. -/
inductive ConfigHeadRequest
  | SetMode (mode : ObjectId)
  | SetCustomMode (width height refresh : Int)
  | SetPosition (x y : Int)
  | SetScale (scale : F64)
  | SetTransform (transform : Transform)
  | SetAdaptiveSync (state : AdaptiveSyncState)
deriving DecidableEq

/-- The trailing requests `SavedConfiguration::apply` always issues after the
mode request: position, scale, transform, and adaptive sync only when the
saved configuration carries it. -/
def trailingRequests (self : SavedConfiguration) : List ConfigHeadRequest :=
  [ConfigHeadRequest.SetPosition (i32ofU32 self.position.1) (i32ofU32 self.position.2),
   ConfigHeadRequest.SetScale self.scale,
   ConfigHeadRequest.SetTransform self.transform] ++
  (match self.adaptive_sync with
   | some b =>
     [ConfigHeadRequest.SetAdaptiveSync
       (if b then AdaptiveSyncState.Enabled else AdaptiveSyncState.Disabled)]
   | none => [])

/-- src/serde.rs `SavedConfiguration::apply`: if the saved mode value is one
the head currently advertises (`mode_to_id` hit), reference that mode's live
handle with `set_mode` (the handle must still exist in `id_to_mode`, else the
source panics "Missing mode for existing id"); otherwise request a custom
mode from the raw width/height/refresh triple (refresh defaulting to 0).
Then position, scale, transform and optionally adaptive sync. -/
def SavedConfiguration.apply (self : SavedConfiguration)
    (mode_to_id : List (Mode × ObjectId)) (id_to_mode : List (ObjectId × Mode)) :
    Except String (List ConfigHeadRequest) :=
  match self.mode with
  | some mode =>
    match lookupKey mode mode_to_id with
    | some id =>
      match lookupKey id id_to_mode with
      | some _ => Except.ok (ConfigHeadRequest.SetMode id :: trailingRequests self)
      | none => Except.error "Missing mode for existing id"
    | none =>
      Except.ok
        (ConfigHeadRequest.SetCustomMode (i32ofU32 mode.size.1) (i32ofU32 mode.size.2)
          (i32ofU32 (mode.refresh.getD 0)) :: trailingRequests self)
  | none => Except.ok (trailingRequests self)

/-- One layout of the in-memory store: src/serde.rs `LayoutData` keeps a
`HashMap<HeadIdentity, Option<SavedConfiguration>>` per layout, modelled as an
association list with unique keys. -/
abbrev Layout := List (HeadIdentity × Option SavedConfiguration)

/-- src/serde.rs `LayoutData`: the in-memory layout store, oldest first. -/
structure LayoutData where
  layouts : List Layout
deriving DecidableEq

/-- The identity set of a stored layout (`saved_layout.keys()`). -/
def layoutKeys (L : Layout) : List HeadIdentity := L.map Prod.fst

/-- src/serde.rs `LayoutMatchScore`: `SameHeads < Exact`. -/
inductive LayoutMatchScore
  | SameHeads
  | Exact
deriving DecidableEq

/-- The derived `Ord` on `LayoutMatchScore` restricted to strict `<`:
only `SameHeads < Exact` holds. -/
def LayoutMatchScore.lt : LayoutMatchScore → LayoutMatchScore → Bool
  | LayoutMatchScore.SameHeads, LayoutMatchScore.Exact => true
  | _, _ => false

/-- The membership test the exact-pair removal uses. -/
def fingerprintMatches (q l : HeadIdentity) : Bool :=
  decide (q.make = l.make) && decide (q.model = l.model) &&
    decide (q.serial_number = l.serial_number)

/-- The stored identities left after removing the exact pairs
(`layout.remove(head_identity)` for every query head present in both). -/
def residualLayout (layout query : List HeadIdentity) : List HeadIdentity :=
  layout.filter (fun l => decide (l ∉ query))

/-- The query identities left after removing the exact pairs
(`query_layout.retain(|h| !layout.remove(h))`). -/
def residualQuery (layout query : List HeadIdentity) : List HeadIdentity :=
  query.filter (fun q => decide (q ∉ layout))

/-- src/serde.rs `LayoutMatchScore::score`, fuzzy stage: for each residual
query head, consume one residual stored head with the same
`(make, model, serial_number)` fingerprint; fail if any query head finds none.
Returns the stored-to-query pairs in the order the query heads were
consumed. -/
def fuzzyPair : List HeadIdentity → List HeadIdentity → Option (List (HeadIdentity × HeadIdentity))
  | [], _ => some []
  | q :: qs, layout =>
    match layout.find? (fun l => fingerprintMatches q l) with
    | none => none
    | some l => (fuzzyPair qs (layout.erase l)).map (fun pairs => (l, q) :: pairs)

/-- src/serde.rs `LayoutMatchScore::score`: reject on differing cardinality;
drop exact pairs; empty residual query means `Exact` with an empty remap;
reject if any residual stored head lacks make or model; otherwise run the
fuzzy pairing and return `SameHeads` with the stored-to-query remap. -/
def LayoutMatchScore.score (layout query : List HeadIdentity) :
    Option (LayoutMatchScore × List (HeadIdentity × HeadIdentity)) :=
  if layout.length = query.length then
    if residualQuery layout query = [] then some (LayoutMatchScore.Exact, [])
    else if (residualLayout layout query).any (fun l => l.make.isNone || l.model.isNone) then
      none
    else
      (fuzzyPair (residualQuery layout query) (residualLayout layout query)).map
        (fun pairs => (LayoutMatchScore.SameHeads, pairs))
  else none

/-- The loop body of src/serde.rs `LayoutData::find_layout_match`: walk the
store in order carrying the best non-exact candidate; an `Exact` score returns
its index with an empty remap immediately; a strictly better score replaces
the carried best. -/
def findLayoutMatchLoop (query : List HeadIdentity) :
    List Layout → Nat → Option (LayoutMatchScore × Nat × List (HeadIdentity × HeadIdentity)) →
      Option (Nat × List (HeadIdentity × HeadIdentity))
  | [], _, best => best.map (fun b => b.2)
  | L :: rest, index, best =>
    match LayoutMatchScore.score (layoutKeys L) query with
    | none => findLayoutMatchLoop query rest (index + 1) best
    | some (s, remap) =>
      if s = LayoutMatchScore.Exact then some (index, [])
      else
        match best with
        | none => findLayoutMatchLoop query rest (index + 1) (some (s, index, remap))
        | some (bestScore, b) =>
          if LayoutMatchScore.lt bestScore s then
            findLayoutMatchLoop query rest (index + 1) (some (s, index, remap))
          else findLayoutMatchLoop query rest (index + 1) (some (bestScore, b))

/-- src/serde.rs `LayoutData::find_layout_match`. -/
def LayoutData.find_layout_match (data : LayoutData) (query : List HeadIdentity) :
    Option (Nat × List (HeadIdentity × HeadIdentity)) :=
  findLayoutMatchLoop query data.layouts 0 none

/-- src/main.rs `matches_layout`: plain set equality of the identity sets. -/
def matches_layout (layout query : List HeadIdentity) : Bool :=
  decide (layout.length = query.length) && query.all (fun q => decide (q ∈ layout))

/-- The per-head requests src/main.rs `AppData::apply_layout` issues on the
new configuration: disable the head, or enable it and apply the saved
configuration. Both carry the live head handle they target. -/
inductive HeadRequest
  | Disable (head : ObjectId)
  | Enable (head : ObjectId) (requests : List ConfigHeadRequest)
deriving DecidableEq

/-- The live head handle a request targets. -/
def headOfRequest : HeadRequest → ObjectId
  | HeadRequest.Disable id => id
  | HeadRequest.Enable id _ => id

/-- The body of src/main.rs `AppData::apply_layout`: for each
`(identity, configuration)` pair of the matched layout, resolve the identity
through `head_identity_to_id` (panic "Could not find head for matched layout"
if absent), fetch the head state (panic "Could not find proxy for id" if
absent), then disable or enable-and-configure it. -/
def applyLayoutEntries (head_identity_to_id : List (HeadIdentity × ObjectId))
    (id_to_head : List (ObjectId × Head)) (id_to_mode : List (ObjectId × Mode)) :
    List (HeadIdentity × Option SavedConfiguration) → Except String (List HeadRequest)
  | [] => Except.ok []
  | (identity, configuration) :: rest =>
    match lookupKey identity head_identity_to_id with
    | none => Except.error "Could not find head for matched layout"
    | some id =>
      match lookupKey id id_to_head with
      | none => Except.error "Could not find proxy for id"
      | some head =>
        match configuration with
        | none =>
          (applyLayoutEntries head_identity_to_id id_to_head id_to_mode rest).map
            (fun rs => HeadRequest.Disable id :: rs)
        | some c =>
          match SavedConfiguration.apply c head.mode_to_id id_to_mode with
          | Except.error e => Except.error e
          | Except.ok reqs =>
            (applyLayoutEntries head_identity_to_id id_to_head id_to_mode rest).map
              (fun rs => HeadRequest.Enable id reqs :: rs)

/-- The claim's resolution rule, following the spec's words for comparison
with the source: resolve a stored identity through the matcher's remap first
and fall back to the unmapped identity itself. -/
def resolveViaRemap (remap : List (HeadIdentity × HeadIdentity)) (identity : HeadIdentity) :
    HeadIdentity :=
  (lookupKey identity remap).getD identity

/-- The spec's version of the applier, for comparison: identical to
`applyLayoutEntries` except that each stored identity is first resolved
through the remap. -/
def applyLayoutEntriesWithRemap (remap : List (HeadIdentity × HeadIdentity))
    (head_identity_to_id : List (HeadIdentity × ObjectId))
    (id_to_head : List (ObjectId × Head)) (id_to_mode : List (ObjectId × Mode)) :
    List (HeadIdentity × Option SavedConfiguration) → Except String (List HeadRequest)
  | [] => Except.ok []
  | (identity, configuration) :: rest =>
    match lookupKey (resolveViaRemap remap identity) head_identity_to_id with
    | none => Except.error "Could not find head for matched layout"
    | some id =>
      match lookupKey id id_to_head with
      | none => Except.error "Could not find proxy for id"
      | some head =>
        match configuration with
        | none =>
          (applyLayoutEntriesWithRemap remap head_identity_to_id id_to_head id_to_mode rest).map
            (fun rs => HeadRequest.Disable id :: rs)
        | some c =>
          match SavedConfiguration.apply c head.mode_to_id id_to_mode with
          | Except.error e => Except.error e
          | Except.ok reqs =>
            (applyLayoutEntriesWithRemap remap head_identity_to_id id_to_head id_to_mode rest).map
              (fun rs => HeadRequest.Enable id reqs :: rs)

/-- src/main.rs `AppData`: the daemon state the dispatch loop mutates.
The file path and the save-and-exit flag are process plumbing and are not
modelled; the proxies inside the source's `HeadState` / `ModeState` wrappers
are identified with their object ids (the map keys). -/
structure AppData where
  partial_objects : PartialObjects
  id_to_head : List (ObjectId × Head)
  head_identity_to_id : List (HeadIdentity × ObjectId)
  id_to_mode : List (ObjectId × Mode)
  apply_configuration : Bool
  layout_data : LayoutData
deriving DecidableEq

/-- src/main.rs `AppData::find_layout_match`: the index of the first stored
layout whose identity set equals the query set (this matcher returns no
remap). -/
def AppData.find_layout_match (data : AppData) (query : List HeadIdentity) : Option Nat :=
  data.layout_data.layouts.findIdx? (fun l => matches_layout (layoutKeys l) query)

/-- src/main.rs `AppData::apply_layout`: build the per-head requests of the
configuration transaction for the stored layout at `index`. -/
def AppData.apply_layout (data : AppData) (index : Nat) : Except String (List HeadRequest) :=
  match data.layout_data.layouts.get? index with
  | none => Except.error "layout index out of bounds"
  | some layout =>
    applyLayoutEntries data.head_identity_to_id data.id_to_head data.id_to_mode layout

/-- The mode events dispatched in src/main.rs `Dispatch<ZwlrOutputModeV1>`. -/
inductive ModeEvent
  | Size (width height : Int)
  | Refresh (refresh : Int)
  | Finished
deriving DecidableEq

/-- src/main.rs `Dispatch<ZwlrOutputModeV1>`: `Size` and `Refresh` update the
staged mode (panic if it is not staged); `Finished` removes the mode from the
staged and committed mode maps — and from nothing else. -/
def AppData.handleModeEvent (data : AppData) (id : ObjectId) : ModeEvent → Except String AppData
  | ModeEvent.Size w h =>
    match lookupKey id data.partial_objects.id_to_mode with
    | none => Except.error "The mode was previously reported and not finished."
    | some pm =>
      Except.ok { data with
        partial_objects := { data.partial_objects with
          id_to_mode := insertKey data.partial_objects.id_to_mode id
            { pm with size := some (u32ofI32 w, u32ofI32 h) } } }
  | ModeEvent.Refresh r =>
    match lookupKey id data.partial_objects.id_to_mode with
    | none => Except.error "The mode was previously reported and not finished."
    | some pm =>
      Except.ok { data with
        partial_objects := { data.partial_objects with
          id_to_mode := insertKey data.partial_objects.id_to_mode id
            { pm with refresh := some (u32ofI32 r) } } }
  | ModeEvent.Finished =>
    Except.ok { data with
      partial_objects := { data.partial_objects with
        id_to_mode := removeKey data.partial_objects.id_to_mode id }
      id_to_mode := removeKey data.id_to_mode id }

/-- The terminal results of a configuration transaction
(src/main.rs `Dispatch<ZwlrOutputConfigurationV1>`). -/
inductive ConfigurationEvent
  | Succeeded
  | Cancelled
  | Failed
deriving DecidableEq

/-- src/main.rs `Dispatch<ZwlrOutputConfigurationV1>`: the handler's effect on
`apply_configuration` and the warnings it prints. `Succeeded` clears the
flag; `Cancelled` does nothing; `Failed` prints a warning and changes no
state. The proxy is destroyed in every case (not modelled: it holds no
state). -/
def handleConfigurationEvent (apply_configuration : Bool) :
    ConfigurationEvent → Bool × List String
  | ConfigurationEvent.Succeeded => (false, [])
  | ConfigurationEvent.Cancelled => (apply_configuration, [])
  | ConfigurationEvent.Failed => (apply_configuration, ["Failed to apply output configuration"])

/-- src/serde.rs `SavedLayoutData`: the serialized store, each layout an
ordered list of pairs. -/
structure SavedLayoutData where
  layouts : List Layout
deriving DecidableEq

/-- src/serde.rs `From<&LayoutData> for SavedLayoutData`: each in-memory
layout `HashMap` is written out in its iteration order, which Rust leaves
unspecified; serialization is therefore the relation admitting every
per-layout pair order. The store-level layout order is kept as is. -/
def Serializes (data : LayoutData) (saved : SavedLayoutData) : Prop :=
  List.Forall₂ (fun m entries => List.Perm entries m) data.layouts saved.layouts

/-- src/serde.rs `From<&SavedLayoutData> for LayoutData`: each serialized pair
list is collected back into a `HashMap`, modelled by the association list
itself (persisted layouts have unique identities). -/
def deserialize (saved : SavedLayoutData) : LayoutData := { layouts := saved.layouts }

/-- Equality of in-memory stores: the layout lists match position by position,
each pair up to the permutation that `HashMap` equality ignores. -/
def LayoutDataEq (d₁ d₂ : LayoutData) : Prop :=
  List.Forall₂ (fun a b => List.Perm a b) d₁.layouts d₂.layouts

/-- The claim's fuzzy-match contract, following the spec's words: `pairs` is a
one-to-one matching that consumes every residual query identity against a
residual stored identity with the same `(make, model, serial_number)`
fingerprint, pairing stored identities (drawn injectively from the residual
stored set) with query identities. -/
def IsFingerprintMatching (pairs : List (HeadIdentity × HeadIdentity))
    (qres lres : List HeadIdentity) : Prop :=
  pairs.map Prod.snd = qres ∧ (pairs.map Prod.fst).Subperm lres ∧
    ∀ p ∈ pairs, fingerprint p.1 = fingerprint p.2

/-- Example identity with no hardware fingerprint. -/
def idA : HeadIdentity :=
  { name := "DP-1", description := "Desk Left", make := none, model := none,
    serial_number := none }

/-- Example identity with a full hardware fingerprint. -/
def idB : HeadIdentity :=
  { name := "DP-2", description := "Desk Right", make := some "BrandB", model := some "B2",
    serial_number := some "42" }

/-- Example stored identity: fingerprint Acme / X1 / 123, transient name DP-3. -/
def idAcme1 : HeadIdentity :=
  { name := "DP-3", description := "Desk", make := some "Acme", model := some "X1",
    serial_number := some "123" }

/-- The same hardware as `idAcme1` reconnected under a new transient name. -/
def idAcme2 : HeadIdentity :=
  { name := "DP-4", description := "Desk", make := some "Acme", model := some "X1",
    serial_number := some "123" }

/-- Example committed mode value: 1920x1080 at 60 kHz-millihertz. -/
def mode1080 : Mode := { size := (1920, 1080), refresh := some 60000 }

/-- A committed, currently disabled head (for the post-commit event claims). -/
def committedDisabledHead : Head :=
  { identity := idB, mode_to_id := [], configuration := none }

/-- A staged head whose only assigned field is `enabled = true` (what a lone
`Enabled(true)` event would stage). -/
def stagedEnabledOnly : PartialHead := { PartialHead.empty with enabled := some true }

/-- Daemon state for the applier claims: the stored layout holds `idAcme1`,
the live head (handle 7) carries `idAcme2` — the fuzzy-match situation. -/
def ceAppData : AppData :=
  { partial_objects := { id_to_head := [], id_to_mode := [] }
    id_to_head := [(7, { identity := idAcme2, mode_to_id := [], configuration := none })]
    head_identity_to_id := [(idAcme2, 7)]
    id_to_mode := []
    apply_configuration := true
    layout_data := { layouts := [[(idAcme1, none)]] } }

/-- A committed head advertising `mode1080` through handle 5. -/
def headWithMode : Head :=
  { identity := idB, mode_to_id := [(mode1080, 5)], configuration := none }

/-- Daemon state for the mode-removal claim: head 10 advertises mode 5, and
mode 5 is committed. -/
def modeFinishedData : AppData :=
  { partial_objects := { id_to_head := [], id_to_mode := [] }
    id_to_head := [(10, headWithMode)]
    head_identity_to_id := [(idB, 10)]
    id_to_mode := [(5, mode1080)]
    apply_configuration := false
    layout_data := { layouts := [] } }

/-- A saved configuration using `mode1080`. -/
def savedCfg1080 : SavedConfiguration :=
  { mode := some mode1080, position := (0, 0), transform := Transform.Normal, scale := 1,
    adaptive_sync := none }

/-- A two-layout store: a single-head layout for `idA`, then one for `idB`. -/
def storeTwo : LayoutData := { layouts := [[(idA, none)], [(idB, none)]] }

/-- A one-layout in-memory store holding two disabled heads. -/
def d0 : LayoutData := { layouts := [[(idA, none), (idB, none)]] }

/-- `d0` serialized with the pairs in one order... -/
def s0 : SavedLayoutData := { layouts := [[(idA, none), (idB, none)]] }

/-- ...and with the pairs in the other order. -/
def s1 : SavedLayoutData := { layouts := [[(idB, none), (idA, none)]] }

/-- A non-default configuration of an enabled committed head. -/
def activeConfig : HeadConfiguration :=
  { current_mode := some 3, position := (10, 20), transform := Transform.Rot90, scale := 2,
    adaptive_sync := some true }

/-- A committed head that is currently enabled with `activeConfig`. -/
def committedEnabledHead : Head :=
  { identity := idB, mode_to_id := [], configuration := some activeConfig }

/-- A second committed mode value, advertised by no head in the examples. -/
def mode1440 : Mode := { size := (2560, 1440), refresh := none }

/-- A saved configuration whose mode is `mode1440`. -/
def savedCfg1440 : SavedConfiguration :=
  { mode := some mode1440, position := (0, 0), transform := Transform.Normal, scale := 1,
    adaptive_sync := some false }

theorem subperm_map {α β : Type} (f : α → β) {l₁ l₂ : List α} (h : l₁.Subperm l₂) :
    (l₁.map f).Subperm (l₂.map f) := by
  obtain ⟨u, hperm, hsub⟩ := h
  exact ⟨u.map f, hperm.map f, hsub.map f⟩

theorem fingerprintMatches_iff (q l : HeadIdentity) :
    fingerprintMatches q l = true ↔ fingerprint q = fingerprint l := by
  simp [fingerprintMatches, fingerprint, Prod.ext_iff, and_assoc]

theorem fuzzyPair_isSome_iff :
    ∀ (qs ls : List HeadIdentity),
      (fuzzyPair qs ls).isSome = true ↔
        (qs.map fingerprint).Subperm (ls.map fingerprint)
  | [], ls => by simp [fuzzyPair, List.nil_subperm]
  | q :: qs, ls => by
    cases hfind : ls.find? (fun l => fingerprintMatches q l) with
    | none =>
      simp only [fuzzyPair, hfind, Option.isSome_none, Bool.false_eq_true, false_iff]
      intro hsub
      have hmem : fingerprint q ∈ ls.map fingerprint := hsub.subset (by simp)
      obtain ⟨l, hl, hfl⟩ := List.mem_map.mp hmem
      exact List.find?_eq_none.mp hfind l hl ((fingerprintMatches_iff q l).mpr hfl.symm)
    | some l =>
      have hpl : fingerprintMatches q l = true := List.find?_some hfind
      have hl : l ∈ ls := List.mem_of_find?_eq_some hfind
      have hfp : fingerprint q = fingerprint l := (fingerprintMatches_iff q l).mp hpl
      have hperm : List.Perm (ls.map fingerprint)
          (fingerprint l :: (ls.erase l).map fingerprint) := by
        simpa using (List.perm_cons_erase hl).map fingerprint
      simp only [fuzzyPair, hfind, Option.isSome_map']
      rw [fuzzyPair_isSome_iff qs (ls.erase l)]
      constructor
      · intro hsub
        refine hperm.symm.subperm_left.mp ?_
        rw [List.map_cons, hfp]
        exact (List.subperm_cons (fingerprint l)).mpr hsub
      · intro hsub
        have h2 := hperm.subperm_left.mp hsub
        rw [List.map_cons, hfp] at h2
        exact (List.subperm_cons (fingerprint l)).mp h2

theorem fuzzyPair_sound :
    ∀ (qs ls : List HeadIdentity) (pairs : List (HeadIdentity × HeadIdentity)),
      fuzzyPair qs ls = some pairs → IsFingerprintMatching pairs qs ls
  | [], ls, pairs, h => by
    simp only [fuzzyPair, Option.some.injEq] at h
    subst h
    simp [IsFingerprintMatching, List.nil_subperm]
  | q :: qs, ls, pairs, h => by
    cases hfind : ls.find? (fun l => fingerprintMatches q l) with
    | none => simp [fuzzyPair, hfind] at h
    | some l =>
      simp only [fuzzyPair, hfind] at h
      cases hrec : fuzzyPair qs (ls.erase l) with
      | none => rw [hrec] at h; cases h
      | some pairs' =>
        rw [hrec] at h
        simp only [Option.map_some', Option.some.injEq] at h
        subst h
        have hpl : fingerprintMatches q l = true := List.find?_some hfind
        have hl : l ∈ ls := List.mem_of_find?_eq_some hfind
        have hfp : fingerprint q = fingerprint l := (fingerprintMatches_iff q l).mp hpl
        obtain ⟨hsnd, hsub, hpairs⟩ := fuzzyPair_sound qs (ls.erase l) pairs' hrec
        refine ⟨by simp [hsnd], ?_, ?_⟩
        · have h2 : List.Subperm (l :: pairs'.map Prod.fst) (l :: ls.erase l) :=
            (List.subperm_cons l).mpr hsub
          exact h2.trans (List.perm_cons_erase hl).symm.subperm
        · intro p hp
          rcases List.mem_cons.mp hp with hp | hp
          · subst hp; exact hfp.symm
          · exact hpairs p hp

theorem matching_subperm_fingerprints (pairs : List (HeadIdentity × HeadIdentity))
    (qres lres : List HeadIdentity) (h : IsFingerprintMatching pairs qres lres) :
    (qres.map fingerprint).Subperm (lres.map fingerprint) := by
  obtain ⟨hsnd, hsub, hfp⟩ := h
  have h1 : qres.map fingerprint = pairs.map (fun p => fingerprint p.2) := by
    rw [← hsnd, List.map_map]
    rfl
  have h2 : pairs.map (fun p => fingerprint p.2) = pairs.map (fun p => fingerprint p.1) :=
    List.map_congr_left (fun p hp => (hfp p hp).symm)
  have h3 : pairs.map (fun p => fingerprint p.1) = (pairs.map Prod.fst).map fingerprint := by
    rw [List.map_map]
    rfl
  rw [h1, h2, h3]
  exact subperm_map fingerprint hsub

theorem score_fuzzy_stage (layout query : List HeadIdentity)
    (hlen : layout.length = query.length)
    (hne : residualQuery layout query ≠ [])
    (hguard : ∀ l ∈ residualLayout layout query, l.make ≠ none ∧ l.model ≠ none) :
    LayoutMatchScore.score layout query =
      (fuzzyPair (residualQuery layout query) (residualLayout layout query)).map
        (fun pairs => (LayoutMatchScore.SameHeads, pairs)) := by
  have hguardb :
      ((residualLayout layout query).any (fun l => l.make.isNone || l.model.isNone)) = false := by
    rw [List.any_eq_false]
    intro l hl
    obtain ⟨h1, h2⟩ := hguard l hl
    simp [Option.isNone_iff_eq_none, h1, h2]
  rw [LayoutMatchScore.score, if_pos hlen, if_neg hne, if_neg (by simp [hguardb])]

theorem score_exact_of_perm (layout query : List HeadIdentity)
    (h : List.Perm layout query) :
    LayoutMatchScore.score layout query = some (LayoutMatchScore.Exact, []) := by
  have hres : residualQuery layout query = [] := by
    rw [residualQuery, List.filter_eq_nil_iff]
    intro q hq
    simp [h.mem_iff.mpr hq]
  rw [LayoutMatchScore.score, if_pos h.length_eq, if_pos hres]

theorem perm_of_score_exact (layout query : List HeadIdentity) (hq : query.Nodup)
    (pairs : List (HeadIdentity × HeadIdentity))
    (h : LayoutMatchScore.score layout query = some (LayoutMatchScore.Exact, pairs)) :
    List.Perm layout query := by
  by_cases hlen : layout.length = query.length
  · rw [LayoutMatchScore.score, if_pos hlen] at h
    by_cases hres : residualQuery layout query = []
    · have hsubset : query ⊆ layout := by
        intro q hq'
        by_contra hnot
        have hmem : q ∈ residualQuery layout query := by
          rw [residualQuery, List.mem_filter]
          exact ⟨hq', by simpa using hnot⟩
        rw [hres] at hmem
        cases hmem
      have hsub : query.Subperm layout := hq.subperm hsubset
      exact (hsub.perm_of_length_le (le_of_eq hlen)).symm
    · rw [if_neg hres] at h
      by_cases hany :
          ((residualLayout layout query).any (fun l => l.make.isNone || l.model.isNone)) = true
      · rw [if_pos hany] at h
        cases h
      · rw [if_neg hany] at h
        obtain ⟨pairs', _, heq⟩ := Option.map_eq_some'.mp h
        cases heq
  · rw [LayoutMatchScore.score, if_neg hlen] at h
    cases h

theorem findLayoutMatchLoop_first_exact (query : List HeadIdentity) :
    ∀ (ls : List Layout) (i : Nat) (L : Layout),
      ls.get? i = some L →
      LayoutMatchScore.score (layoutKeys L) query = some (LayoutMatchScore.Exact, []) →
      (∀ j Lj, j < i → ls.get? j = some Lj →
        ∀ pairs,
          LayoutMatchScore.score (layoutKeys Lj) query ≠
            some (LayoutMatchScore.Exact, pairs)) →
      ∀ (idx : Nat) best, findLayoutMatchLoop query ls idx best = some (idx + i, [])
  | [], i, L, hget, _, _ => by simp at hget
  | L0 :: rest, i, L, hget, hex, hbefore => by
    cases i with
    | zero =>
      intro idx best
      have hL : L = L0 := by simpa using hget.symm
      subst hL
      simp [findLayoutMatchLoop, hex]
    | succ i' =>
      intro idx best
      have hget' : rest.get? i' = some L := by simpa using hget
      have hb0 := hbefore 0 L0 (Nat.succ_pos i') rfl
      have hbefore' : ∀ j Lj, j < i' → rest.get? j = some Lj →
          ∀ pairs,
            LayoutMatchScore.score (layoutKeys Lj) query ≠
              some (LayoutMatchScore.Exact, pairs) := by
        intro j Lj hj hgj
        exact hbefore (j + 1) Lj (by omega) (by simpa using hgj)
      have harith : idx + 1 + i' = idx + (i' + 1) := by omega
      have ih := findLayoutMatchLoop_first_exact query rest i' L hget' hex hbefore'
      cases hscore : LayoutMatchScore.score (layoutKeys L0) query with
      | none =>
        rw [findLayoutMatchLoop, hscore]
        rw [ih (idx + 1) best, harith]
      | some sr =>
        obtain ⟨s, remap⟩ := sr
        have hsne : ¬(s = LayoutMatchScore.Exact) := by
          intro hcon
          subst hcon
          exact hb0 remap hscore
        rw [findLayoutMatchLoop, hscore]
        simp only [if_neg hsne]
        cases best with
        | none => rw [ih (idx + 1) _, harith]
        | some b =>
          obtain ⟨bs, bb⟩ := b
          cases hlt : LayoutMatchScore.lt bs s
          · simp only [Bool.false_eq_true, if_neg (by simp [hlt] : ¬(LayoutMatchScore.lt bs s = true))]
            rw [ih (idx + 1) _, harith]
          · simp only [if_pos hlt]
            rw [ih (idx + 1) _, harith]

theorem applyLayoutEntries_error_of_missing (h2id : List (HeadIdentity × ObjectId))
    (id2head : List (ObjectId × Head)) (id2mode : List (ObjectId × Mode)) :
    ∀ entries : List (HeadIdentity × Option SavedConfiguration),
      (∃ entry ∈ entries, lookupKey entry.1 h2id = none) →
      ∃ e, applyLayoutEntries h2id id2head id2mode entries = Except.error e
  | [], h => by simp at h
  | (identity, configuration) :: rest, h => by
    cases hk : lookupKey identity h2id with
    | none =>
      exact ⟨"Could not find head for matched layout", by simp [applyLayoutEntries, hk]⟩
    | some id =>
      have hrest : ∃ entry ∈ rest, lookupKey entry.1 h2id = none := by
        obtain ⟨entry, hmem, hnone⟩ := h
        rcases List.mem_cons.mp hmem with hfirst | hmem'
        · subst hfirst
          rw [hk] at hnone
          cases hnone
        · exact ⟨entry, hmem', hnone⟩
      cases hh : lookupKey id id2head with
      | none => exact ⟨"Could not find proxy for id", by simp [applyLayoutEntries, hk, hh]⟩
      | some head =>
        obtain ⟨e, he⟩ := applyLayoutEntries_error_of_missing h2id id2head id2mode rest hrest
        cases configuration with
        | none => exact ⟨e, by simp [applyLayoutEntries, hk, hh, he, Except.map]⟩
        | some c =>
          cases happly : SavedConfiguration.apply c head.mode_to_id id2mode with
          | error e' =>
            exact ⟨e', by simp [applyLayoutEntries, hk, hh, happly]⟩
          | ok reqs =>
            exact ⟨e, by simp [applyLayoutEntries, hk, hh, happly, he, Except.map]⟩

theorem applyLayoutEntries_resolves_directly (h2id : List (HeadIdentity × ObjectId))
    (id2head : List (ObjectId × Head)) (id2mode : List (ObjectId × Mode)) :
    ∀ (entries : List (HeadIdentity × Option SavedConfiguration)) (reqs : List HeadRequest),
      applyLayoutEntries h2id id2head id2mode entries = Except.ok reqs →
      List.Forall₂
        (fun (entry : HeadIdentity × Option SavedConfiguration) (req : HeadRequest) =>
          lookupKey entry.1 h2id = some (headOfRequest req))
        entries reqs
  | [], reqs, h => by
    rw [applyLayoutEntries] at h
    cases h
    exact List.Forall₂.nil
  | (identity, configuration) :: rest, reqs, h => by
    cases hk : lookupKey identity h2id with
    | none => simp [applyLayoutEntries, hk] at h
    | some id =>
      cases hh : lookupKey id id2head with
      | none => simp [applyLayoutEntries, hk, hh] at h
      | some head =>
        cases configuration with
        | none =>
          cases hrest : applyLayoutEntries h2id id2head id2mode rest with
          | error e => simp [applyLayoutEntries, hk, hh, hrest, Except.map] at h
          | ok rs =>
            simp only [applyLayoutEntries, hk, hh, hrest, Except.map, Except.ok.injEq] at h
            subst h
            exact List.Forall₂.cons (by simp [headOfRequest, hk])
              (applyLayoutEntries_resolves_directly h2id id2head id2mode rest rs hrest)
        | some c =>
          cases happly : SavedConfiguration.apply c head.mode_to_id id2mode with
          | error e => simp [applyLayoutEntries, hk, hh, happly] at h
          | ok creqs =>
            cases hrest : applyLayoutEntries h2id id2head id2mode rest with
            | error e => simp [applyLayoutEntries, hk, hh, happly, hrest, Except.map] at h
            | ok rs =>
              simp only [applyLayoutEntries, hk, hh, happly, Except.map, hrest,
                Except.ok.injEq] at h
              subst h
              exact List.Forall₂.cons (by simp [headOfRequest, hk])
                (applyLayoutEntries_resolves_directly h2id id2head id2mode rest rs hrest)

/-- Claim C1, evaluated at the failing input (code bug): in src/main.rs the
`HeadState::Full` arm of the `Enabled` event sets the configuration to `None`
whatever the flag, so an `Enabled(true)` event targeting an already committed
head clears the configuration instead of installing `Some(default)`; the next
configuration event for the now-enabled head then panics with a message
claiming the head is disabled. `Head::apply_partial` (src/complete.rs), the
repository's own staging path, installs the fresh default configuration the
claim describes. -/
theorem enabled_true_on_committed_head_clears_configuration :
    handleCommittedHeadEvent committedEnabledHead (HeadEvent.Enabled 1) =
      Except.ok { committedEnabledHead with configuration := none } ∧
    handleCommittedHeadEvent { committedEnabledHead with configuration := none }
        (HeadEvent.CurrentMode 5) =
      Except.error "Received a CurrentMode event while head is disabled" ∧
    Head.apply_partial committedDisabledHead stagedEnabledOnly [] =
      Except.ok
        { committedDisabledHead with configuration := some HeadConfiguration.defaultConfig } := by
  refine ⟨rfl, rfl, ?_⟩
  rfl

/-- Claim C2, evaluated at the failing input (code bug): a staged mode whose
size is still absent when `Done` arrives makes the drain in src/main.rs panic
via `expect` — the program aborts instead of dropping the phantom mode with a
recoverable warning. `Mode::tryFrom` reports the recoverable `MissingSize`,
and `Head::apply_partial` (src/complete.rs) deliberately tolerates modes that
are missing, so the abort contradicts the repository's own phantom-mode
policy. -/
theorem done_aborts_on_phantom_mode :
    drainModes [(1, { size := none, refresh := none })] =
      Except.error "Done is called, so the partial mode should be well-defined" ∧
    Mode.tryFrom { size := none, refresh := none } =
      Except.error CreateModeError.MissingSize := by
  exact ⟨rfl, rfl⟩

/-- Claim C8, evaluated at the failing input (code bug): `ModeFinished` for
committed mode 5 removes it from the staged and committed mode maps but
leaves head 10's `mode_to_id` entry `(mode1080, 5)` untouched; applying a
saved configuration that stores `mode1080` then hits the stale handle and
panics with the source's own "Missing mode for existing id" assertion. -/
theorem mode_finished_skips_head_map_pruning :
    AppData.handleModeEvent modeFinishedData 5 ModeEvent.Finished =
      Except.ok
        { partial_objects := { id_to_head := [], id_to_mode := [] }
          id_to_head := [(10, headWithMode)]
          head_identity_to_id := [(idB, 10)]
          id_to_mode := []
          apply_configuration := false
          layout_data := { layouts := [] } } ∧
    headWithMode.mode_to_id = [(mode1080, 5)] ∧
    SavedConfiguration.apply savedCfg1080 headWithMode.mode_to_id [] =
      Except.error "Missing mode for existing id" := by
  refine ⟨?_, rfl, rfl⟩
  rfl

/-- Claim C4 (counterexample): after the dispatch submits a transaction the
pending-apply flag is `false`; a `Cancelled` or `Failed` result leaves it
`false`, so the orchestrator does not return to the Apply state and the
configuration is not retried on the next barrier. -/
theorem cancelled_does_not_reschedule_apply :
    ¬((handleConfigurationEvent false ConfigurationEvent.Cancelled).1 = true) ∧
    ¬((handleConfigurationEvent false ConfigurationEvent.Failed).1 = true) := by
  exact ⟨by simp [handleConfigurationEvent], by simp [handleConfigurationEvent]⟩

/-- Claim C4 as amended: every transaction result is handled without aborting;
`Succeeded` clears the pending-apply flag, `Cancelled` changes nothing, and
`Failed` changes no state but surfaces the user-visible warning — neither
`Cancelled` nor `Failed` schedules a retry. -/
theorem transaction_results_are_nonfatal (flag : Bool) :
    handleConfigurationEvent flag ConfigurationEvent.Succeeded = (false, []) ∧
    handleConfigurationEvent flag ConfigurationEvent.Cancelled = (flag, []) ∧
    handleConfigurationEvent flag ConfigurationEvent.Failed =
      (flag, ["Failed to apply output configuration"]) := by
  exact ⟨rfl, rfl, rfl⟩

/-- Claim C10: the dispatch collapses the adaptive-sync wire tri-state to a
boolean. Every recognized state other than `Enabled` is recorded as
`some false` on the targeted head (staged, or committed and enabled), only
`Enabled` is recorded as `some true`, and no head event ever resets a
recorded adaptive-sync field to `none`. -/
theorem adaptive_sync_collapsed_to_bool :
    (∀ (p : PartialHead) (s : AdaptiveSyncState), s ≠ AdaptiveSyncState.Enabled →
      (handlePartialHeadEvent p (HeadEvent.AdaptiveSync s)).adaptive_sync = some false) ∧
    (∀ p : PartialHead,
      (handlePartialHeadEvent p
        (HeadEvent.AdaptiveSync AdaptiveSyncState.Enabled)).adaptive_sync = some true) ∧
    (∀ (h : Head) (c : HeadConfiguration) (s : AdaptiveSyncState),
      h.configuration = some c → s ≠ AdaptiveSyncState.Enabled →
      ∃ h', handleCommittedHeadEvent h (HeadEvent.AdaptiveSync s) = Except.ok h' ∧
        h'.configuration.map (fun c' => c'.adaptive_sync) = some (some false)) ∧
    (∀ (h : Head) (c : HeadConfiguration), h.configuration = some c →
      ∃ h', handleCommittedHeadEvent h (HeadEvent.AdaptiveSync AdaptiveSyncState.Enabled) =
          Except.ok h' ∧
        h'.configuration.map (fun c' => c'.adaptive_sync) = some (some true)) ∧
    (∀ (p : PartialHead) (e : HeadEvent),
      (handlePartialHeadEvent p e).adaptive_sync = none → p.adaptive_sync = none) ∧
    (∀ (h : Head) (e : HeadEvent) (h' : Head) (c' : HeadConfiguration),
      handleCommittedHeadEvent h e = Except.ok h' → h'.configuration = some c' →
      c'.adaptive_sync = none →
      ∃ c, h.configuration = some c ∧ c.adaptive_sync = none) := by
  refine ⟨?_, ?_, ?_, ?_, ?_, ?_⟩
  · intro p s hs
    cases s with
    | Enabled => exact absurd rfl hs
    | Disabled => rfl
    | Unknown => rfl
  · intro p
    rfl
  · intro h c s hc hs
    cases s with
    | Enabled => exact absurd rfl hs
    | Disabled =>
      refine ⟨{ h with configuration := some { c with adaptive_sync := some false } }, ?_, ?_⟩
      · simp [handleCommittedHeadEvent, hc, adaptiveSyncToBool]
      · simp
    | Unknown =>
      refine ⟨{ h with configuration := some { c with adaptive_sync := some false } }, ?_, ?_⟩
      · simp [handleCommittedHeadEvent, hc, adaptiveSyncToBool]
      · simp
  · intro h c hc
    refine ⟨{ h with configuration := some { c with adaptive_sync := some true } }, ?_, ?_⟩
    · simp [handleCommittedHeadEvent, hc, adaptiveSyncToBool]
    · simp
  · intro p e hnone
    cases e <;> simp [handlePartialHeadEvent] at hnone <;> exact hnone
  · intro h e h' c' hok hcfg hnone
    cases e with
    | Name _ => simp [handleCommittedHeadEvent] at hok
    | Description _ => simp [handleCommittedHeadEvent] at hok
    | Make _ => simp [handleCommittedHeadEvent] at hok
    | Model _ => simp [handleCommittedHeadEvent] at hok
    | SerialNumber _ => simp [handleCommittedHeadEvent] at hok
    | PhysicalSize _ _ => simp [handleCommittedHeadEvent] at hok
    | ModeAdded _ => simp [handleCommittedHeadEvent] at hok
    | Enabled _ =>
      simp only [handleCommittedHeadEvent, Except.ok.injEq] at hok
      subst hok
      simp at hcfg
    | CurrentMode id =>
      cases hc : h.configuration with
      | none => simp [handleCommittedHeadEvent, hc] at hok
      | some c =>
        simp only [handleCommittedHeadEvent, hc, Except.ok.injEq] at hok
        subst hok
        simp only [Option.some.injEq] at hcfg
        refine ⟨c, rfl, ?_⟩
        rw [← hcfg] at hnone
        simpa using hnone
    | Position x y =>
      cases hc : h.configuration with
      | none => simp [handleCommittedHeadEvent, hc] at hok
      | some c =>
        simp only [handleCommittedHeadEvent, hc, Except.ok.injEq] at hok
        subst hok
        simp only [Option.some.injEq] at hcfg
        refine ⟨c, rfl, ?_⟩
        rw [← hcfg] at hnone
        simpa using hnone
    | TransformEvent t =>
      cases hc : h.configuration with
      | none => simp [handleCommittedHeadEvent, hc] at hok
      | some c =>
        simp only [handleCommittedHeadEvent, hc, Except.ok.injEq] at hok
        subst hok
        simp only [Option.some.injEq] at hcfg
        refine ⟨c, rfl, ?_⟩
        rw [← hcfg] at hnone
        simpa using hnone
    | Scale s =>
      cases hc : h.configuration with
      | none => simp [handleCommittedHeadEvent, hc] at hok
      | some c =>
        simp only [handleCommittedHeadEvent, hc, Except.ok.injEq] at hok
        subst hok
        simp only [Option.some.injEq] at hcfg
        refine ⟨c, rfl, ?_⟩
        rw [← hcfg] at hnone
        simpa using hnone
    | AdaptiveSync s =>
      cases hc : h.configuration with
      | none => simp [handleCommittedHeadEvent, hc] at hok
      | some c =>
        simp only [handleCommittedHeadEvent, hc, Except.ok.injEq] at hok
        subst hok
        simp only [Option.some.injEq] at hcfg
        rw [← hcfg] at hnone
        exact absurd hnone (by simp)

/-- Claim C10 applied at concrete inputs: an `unknown` adaptive-sync state on
a staged head records `some false`, and a `disabled` state on a committed
enabled head records `some false`. -/
theorem adaptive_sync_collapsed_to_bool_witness :
    (handlePartialHeadEvent PartialHead.empty
      (HeadEvent.AdaptiveSync AdaptiveSyncState.Unknown)).adaptive_sync = some false ∧
    (∃ h', handleCommittedHeadEvent committedEnabledHead
        (HeadEvent.AdaptiveSync AdaptiveSyncState.Disabled) = Except.ok h' ∧
      h'.configuration.map (fun c' => c'.adaptive_sync) = some (some false)) :=
  ⟨adaptive_sync_collapsed_to_bool.1 PartialHead.empty AdaptiveSyncState.Unknown (by decide),
   adaptive_sync_collapsed_to_bool.2.2.1 committedEnabledHead activeConfig
     AdaptiveSyncState.Disabled rfl (by decide)⟩

/-- Claim C6: when the applier processes a saved configuration whose stored
mode the head currently advertises, it references that mode's live handle via
a set-mode request; when the mode is not advertised it requests a custom mode
built from the raw width/height/refresh triple (refresh defaulting to 0); and
an entry with no saved configuration yields a disable request for the
resolved head. -/
theorem saved_configuration_apply_mode_selection (c : SavedConfiguration)
    (mode_to_id : List (Mode × ObjectId)) (id_to_mode : List (ObjectId × Mode))
    (m : Mode) (id : ObjectId) :
    (c.mode = some m → lookupKey m mode_to_id = some id →
      (lookupKey id id_to_mode).isSome = true →
      SavedConfiguration.apply c mode_to_id id_to_mode =
        Except.ok (ConfigHeadRequest.SetMode id :: trailingRequests c)) ∧
    (c.mode = some m → lookupKey m mode_to_id = none →
      SavedConfiguration.apply c mode_to_id id_to_mode =
        Except.ok
          (ConfigHeadRequest.SetCustomMode (i32ofU32 m.size.1) (i32ofU32 m.size.2)
            (i32ofU32 (m.refresh.getD 0)) :: trailingRequests c)) ∧
    (∀ (h2id : List (HeadIdentity × ObjectId)) (id2head : List (ObjectId × Head))
        (identity : HeadIdentity) (hd : Head),
      lookupKey identity h2id = some id → lookupKey id id2head = some hd →
      applyLayoutEntries h2id id2head id_to_mode [(identity, none)] =
        Except.ok [HeadRequest.Disable id]) := by
  refine ⟨?_, ?_, ?_⟩
  · intro hm hk hsome
    obtain ⟨pm, hpm⟩ := Option.isSome_iff_exists.mp hsome
    simp [SavedConfiguration.apply, hm, hk, hpm]
  · intro hm hk
    simp [SavedConfiguration.apply, hm, hk]
  · intro h2id id2head identity hd hident hhead
    simp [applyLayoutEntries, hident, hhead, Except.map]

/-- Claim C6 applied at concrete inputs: an advertised stored mode is
referenced through its live handle, an unadvertised one becomes a custom-mode
request, and a configuration-less entry disables the resolved head. -/
theorem saved_configuration_apply_mode_selection_witness :
    SavedConfiguration.apply savedCfg1080 [(mode1080, 5)] [(5, mode1080)] =
      Except.ok (ConfigHeadRequest.SetMode 5 :: trailingRequests savedCfg1080) ∧
    SavedConfiguration.apply savedCfg1440 [(mode1080, 5)] [(5, mode1080)] =
      Except.ok
        (ConfigHeadRequest.SetCustomMode (i32ofU32 mode1440.size.1) (i32ofU32 mode1440.size.2)
          (i32ofU32 (mode1440.refresh.getD 0)) :: trailingRequests savedCfg1440) ∧
    applyLayoutEntries [(idB, 10)] [(10, headWithMode)] [] [(idB, none)] =
      Except.ok [HeadRequest.Disable 10] :=
  ⟨(saved_configuration_apply_mode_selection savedCfg1080 [(mode1080, 5)] [(5, mode1080)]
      mode1080 5).1 rfl (by decide) (by decide),
   (saved_configuration_apply_mode_selection savedCfg1440 [(mode1080, 5)] [(5, mode1080)]
      mode1440 5).2.1 rfl (by decide),
   (saved_configuration_apply_mode_selection savedCfg1080 [(mode1080, 5)] [] mode1080 10).2.2
     [(idB, 10)] [(10, headWithMode)] idB headWithMode (by decide) (by decide)⟩

/-- Claim C3 (counterexample): for the fuzzy-match situation the matcher in
src/serde.rs does return the stored-to-live remap, and remap-first resolution
(the claim's rule) would succeed, but `AppData::apply_layout` takes no remap
and resolves the stored identity directly, so it panics instead. -/
theorem apply_layout_ignores_remap :
    LayoutData.find_layout_match ceAppData.layout_data [idAcme2] =
      some (0, [(idAcme1, idAcme2)]) ∧
    applyLayoutEntriesWithRemap [(idAcme1, idAcme2)] ceAppData.head_identity_to_id
        ceAppData.id_to_head ceAppData.id_to_mode [(idAcme1, none)] =
      Except.ok [HeadRequest.Disable 7] ∧
    AppData.apply_layout ceAppData 0 =
      Except.error "Could not find head for matched layout" := by
  refine ⟨?_, ?_, ?_⟩ <;> rfl

/-- Claim C3 as amended: `AppData::apply_layout` resolves each stored
identity of the matched layout directly through the identity index (the
dispatch's own matcher returns only an index and no remap); absence of a live
handle for the identity itself panics — an internal-invariant violation — and
on success each request targets exactly the handle the identity index maps
that entry's identity to. -/
theorem apply_layout_resolves_identity_directly (data : AppData) (index : Nat)
    (layout : Layout) (hidx : data.layout_data.layouts.get? index = some layout) :
    ((∃ entry ∈ layout, lookupKey entry.1 data.head_identity_to_id = none) →
      ∃ e, AppData.apply_layout data index = Except.error e) ∧
    (∀ reqs, AppData.apply_layout data index = Except.ok reqs →
      List.Forall₂
        (fun (entry : HeadIdentity × Option SavedConfiguration) (req : HeadRequest) =>
          lookupKey entry.1 data.head_identity_to_id = some (headOfRequest req))
        layout reqs) := by
  constructor
  · intro hmissing
    obtain ⟨e, he⟩ := applyLayoutEntries_error_of_missing data.head_identity_to_id
      data.id_to_head data.id_to_mode layout hmissing
    refine ⟨e, ?_⟩
    simp only [AppData.apply_layout, hidx]
    exact he
  · intro reqs hok
    simp only [AppData.apply_layout, hidx] at hok
    exact applyLayoutEntries_resolves_directly data.head_identity_to_id data.id_to_head
      data.id_to_mode layout reqs hok

/-- Claim C3 (amended) applied at a concrete input: the stored identity of the
matched layout is absent from the identity index, so the applier panics. -/
theorem apply_layout_resolves_identity_directly_witness :
    ceAppData.layout_data.layouts.get? 0 = some [(idAcme1, none)] ∧
    (∃ e, AppData.apply_layout ceAppData 0 = Except.error e) :=
  ⟨rfl,
   (apply_layout_resolves_identity_directly ceAppData 0 [(idAcme1, none)] rfl).1
     ⟨(idAcme1, none), by decide, by decide⟩⟩

/-- Claim C9 (counterexample): the serialize-then-deserialize round trip does
not preserve the pair order inside a layout. Each in-memory layout is a keyed
map with unspecified iteration order, so deserializing `s0` and serializing
the result may produce `s1`, the same pairs in the other order. -/
theorem round_trip_pair_order_not_preserved :
    deserialize s0 = d0 ∧ Serializes d0 s1 ∧ s1 ≠ s0 := by
  refine ⟨rfl, ?_, by decide⟩
  exact List.Forall₂.cons (List.Perm.swap (idA, none) (idB, none) []) List.Forall₂.nil

/-- Claim C9 as amended: serializing and then deserializing a layout store
yields an equal store — the store-level order of layouts is preserved
position by position and each layout round-trips to an equal
identity-to-configuration map; the pair order inside a layout is not part of
the in-memory store (each layout is a keyed map) and is not preserved in
general. -/
theorem serialize_then_deserialize_store_eq (data : LayoutData) (saved : SavedLayoutData)
    (h : Serializes data saved) : LayoutDataEq (deserialize saved) data := by
  obtain ⟨ls⟩ := data
  obtain ⟨ss⟩ := saved
  simp only [Serializes] at h
  simp only [LayoutDataEq, deserialize]
  induction h with
  | nil => exact List.Forall₂.nil
  | cons hrel _ ih => exact List.Forall₂.cons hrel ih

/-- Claim C9 (amended) applied at a concrete input: `d0` serialized in
insertion order deserializes back to an equal store. -/
theorem serialize_then_deserialize_store_eq_witness :
    Serializes d0 s0 ∧ LayoutDataEq (deserialize s0) d0 := by
  have hs : Serializes d0 s0 := List.Forall₂.cons (List.Perm.refl _) List.Forall₂.nil
  exact ⟨hs, serialize_then_deserialize_store_eq d0 s0 hs⟩

/-- Claim C5: for a stored layout and query entering the fuzzy stage (same
cardinality, residual query non-empty after removing exact pairs, every
residual stored identity carrying make and model), the matcher scores
`SameHeads` iff there is a one-to-one matching consuming each residual query
identity against a residual stored identity with an equal
`(make, model, serial_number)` fingerprint — an unmatched residual query
identity rejects the layout — and any returned remap is itself such a
matching: it maps matched stored identities, drawn from the residual stored
set (so exact pairs are omitted), to their live identities. -/
theorem score_sameHeads_iff_fingerprint_matching (layout query : List HeadIdentity)
    (hlen : layout.length = query.length)
    (hne : residualQuery layout query ≠ [])
    (hguard : ∀ l ∈ residualLayout layout query, l.make ≠ none ∧ l.model ≠ none) :
    ((∃ pairs, LayoutMatchScore.score layout query =
        some (LayoutMatchScore.SameHeads, pairs)) ↔
      ∃ pairs, IsFingerprintMatching pairs (residualQuery layout query)
        (residualLayout layout query)) ∧
    ∀ pairs, LayoutMatchScore.score layout query = some (LayoutMatchScore.SameHeads, pairs) →
      IsFingerprintMatching pairs (residualQuery layout query)
        (residualLayout layout query) := by
  have hscore := score_fuzzy_stage layout query hlen hne hguard
  have hfwd : ∀ pairs,
      LayoutMatchScore.score layout query = some (LayoutMatchScore.SameHeads, pairs) →
      fuzzyPair (residualQuery layout query) (residualLayout layout query) = some pairs := by
    intro pairs hp
    rw [hscore] at hp
    obtain ⟨pairs', hfz, heq⟩ := Option.map_eq_some'.mp hp
    injection heq with heq1 heq2
    rw [heq2] at hfz
    exact hfz
  constructor
  · constructor
    · rintro ⟨pairs, hp⟩
      exact ⟨pairs, fuzzyPair_sound _ _ _ (hfwd pairs hp)⟩
    · rintro ⟨pairs, hm⟩
      have hsub := matching_subperm_fingerprints pairs _ _ hm
      have hsome := (fuzzyPair_isSome_iff _ _).mpr hsub
      obtain ⟨pairs', hp'⟩ := Option.isSome_iff_exists.mp hsome
      refine ⟨pairs', ?_⟩
      rw [hscore, hp']
      rfl
  · intro pairs hp
    exact fuzzyPair_sound _ _ _ (hfwd pairs hp)

/-- Claim C5 applied at a concrete input: the stored identity `idAcme1` and
the live identity `idAcme2` differ only in their transient name, enter the
fuzzy stage, and score `SameHeads` with the remap pairing them. -/
theorem score_sameHeads_iff_fingerprint_matching_witness :
    ([idAcme1].length = [idAcme2].length ∧ residualQuery [idAcme1] [idAcme2] ≠ [] ∧
      (∀ l ∈ residualLayout [idAcme1] [idAcme2], l.make ≠ none ∧ l.model ≠ none)) ∧
    (((∃ pairs, LayoutMatchScore.score [idAcme1] [idAcme2] =
        some (LayoutMatchScore.SameHeads, pairs)) ↔
      ∃ pairs, IsFingerprintMatching pairs (residualQuery [idAcme1] [idAcme2])
        (residualLayout [idAcme1] [idAcme2])) ∧
    ∀ pairs,
      LayoutMatchScore.score [idAcme1] [idAcme2] = some (LayoutMatchScore.SameHeads, pairs) →
      IsFingerprintMatching pairs (residualQuery [idAcme1] [idAcme2])
        (residualLayout [idAcme1] [idAcme2])) :=
  ⟨⟨rfl, by decide, by decide⟩,
   score_sameHeads_iff_fingerprint_matching [idAcme1] [idAcme2] rfl (by decide) (by decide)⟩

/-- Claim C7: a stored layout whose identity set equals the query identity
set scores `Exact` with an empty remap, and `LayoutData::find_layout_match`
returns the first such store index immediately, with the empty remap, ending
the search. -/
theorem find_layout_match_first_exact (layouts : List Layout) (query : List HeadIdentity)
    (hq : query.Nodup) (i : Nat) (hi : i < layouts.length)
    (hexact : List.Perm (layoutKeys (layouts.get ⟨i, hi⟩)) query)
    (hfirst : ∀ j : Fin layouts.length, (j : Nat) < i →
      ¬ List.Perm (layoutKeys (layouts.get j)) query) :
    LayoutMatchScore.score (layoutKeys (layouts.get ⟨i, hi⟩)) query =
      some (LayoutMatchScore.Exact, []) ∧
    LayoutData.find_layout_match { layouts := layouts } query = some (i, []) := by
  have hex := score_exact_of_perm _ query hexact
  refine ⟨hex, ?_⟩
  have hb : ∀ j Lj, j < i → layouts.get? j = some Lj →
      ∀ pairs,
        LayoutMatchScore.score (layoutKeys Lj) query ≠
          some (LayoutMatchScore.Exact, pairs) := by
    intro j Lj hj hgj pairs hcon
    obtain ⟨hlt, hL⟩ := List.get?_eq_some.mp hgj
    have hperm := perm_of_score_exact _ query hq pairs hcon
    refine hfirst ⟨j, hlt⟩ hj ?_
    rw [hL]
    exact hperm
  have hloop := findLayoutMatchLoop_first_exact query layouts i (layouts.get ⟨i, hi⟩)
    (List.get?_eq_get hi) hex hb 0 none
  simpa [LayoutData.find_layout_match] using hloop

/-- Claim C7 applied at a concrete input: in a store whose first layout does
not match, the second layout's identity set equals the query and the matcher
returns index 1 with the empty remap. -/
theorem find_layout_match_first_exact_witness :
    [idB].Nodup ∧ 1 < storeTwo.layouts.length ∧
    LayoutData.find_layout_match storeTwo [idB] = some (1, []) := by
  refine ⟨by decide, by decide, ?_⟩
  exact (find_layout_match_first_exact storeTwo.layouts [idB] (by decide) 1 (by decide)
    (by decide) (by decide)).2
